import Mathlib

/-!
Shallow embedding of the property-listing caching core
(`properties/utils.py` and `properties/signals.py`).

The Django cache backend is modelled as an association list from string
keys to stored values together with the TTL (in seconds) given at `set`
time.  Stored values are the three kinds of data the code ever puts in
the cache: the materialised property collection, the metrics history,
and opaque view-cache entries created by the `@cache_page` decorator.
The database (`Property.objects.all()`) is modelled as an explicit
argument, and `datetime.now()` as an explicit `now : Nat` argument.
-/

namespace PropertyListings

/-- An entity of the `Property` model; the caching core only ever treats it
as an opaque record with an identifier. -/
structure Property where
  id : Nat
  deriving DecidableEq, Repr

/-- Hit/miss statistics block of a metrics snapshot (`cache_stats` in the
dict built by `get_redis_cache_metrics`).  On the error path the Python
dict carries only `hits`, `misses` and `hit_ratio`; the optional fields
model the keys that are present only on the success path. -/
structure CacheStats where
  hits : Nat
  misses : Nat
  total_requests : Option Nat
  hit_ratio : ℚ
  miss_ratio : Option ℚ
  deriving DecidableEq, Repr

/-- The metrics snapshot dict built by `get_redis_cache_metrics`,
restricted to the fields the analysis logic and the report read back
(timestamp, cache stats, keyspace/memory figures used by the report,
the `analysis` classification, the fragmentation `warning`, and the
`error` field of the failure path). -/
structure Metrics where
  timestamp : Nat
  cache_stats : CacheStats
  total_keys : Nat
  mem_fragmentation_ratio : ℚ
  eviction_rate_per_sec : ℚ
  analysis : Option String
  warning : Option String
  error : Option String
  deriving DecidableEq, Repr

/-- A value stored in the Django cache: the property collection under
`all_properties`, the snapshot history under `cache_metrics_history`, or
an opaque rendered-page entry under a `views.decorators.cache.*` key. -/
inductive CacheVal where
  | props (ps : List Property)
  | history (h : List Metrics)
  | page (body : String)
  deriving DecidableEq, Repr

/-- One cache entry: key, stored value, and the TTL passed to `cache.set`. -/
structure CacheEntry where
  key : String
  val : CacheVal
  ttl : Nat
  deriving DecidableEq, Repr

/-- The cache backend state. -/
abbrev Cache := List CacheEntry

/-- `cache.get(key)`: `None` when the key is absent. -/
def cacheGet (c : Cache) (k : String) : Option CacheVal :=
  (c.find? (fun e => e.key == k)).map (fun e => e.val)

/-- TTL recorded for a key (for stating what `cache.set` stored). -/
def cacheTTL (c : Cache) (k : String) : Option Nat :=
  (c.find? (fun e => e.key == k)).map (fun e => e.ttl)

/-- `cache.set(key, value, ttl)`: bind `key`, replacing any previous binding. -/
def cacheSet (c : Cache) (k : String) (v : CacheVal) (ttl : Nat) : Cache :=
  ⟨k, v, ttl⟩ :: c.filter (fun e => !(e.key == k))

/-- `cache.delete(key)`: remove the binding; absent keys are a no-op. -/
def cacheDelete (c : Cache) (k : String) : Cache :=
  c.filter (fun e => !(e.key == k))

/-- `cache.delete_pattern(prefix + '*')`: remove every key matching the
glob, i.e. every key starting with the prefix. -/
def cacheDeletePattern (c : Cache) (pfx : String) : Cache :=
  c.filter (fun e => !(pfx.isPrefixOf e.key))

/-- Result of `get_all_properties`: the value handed back to the caller,
the cache afterwards, and whether the database was queried
(`Property.objects.all()` executed, i.e. the miss branch ran). -/
structure GetAllResult where
  value : CacheVal
  cache : Cache
  dbCalled : Bool
  deriving DecidableEq, Repr

/-- `get_all_properties()` from `properties/utils.py`.  `db` is the
collection `Property.objects.all()` would materialise. -/
def get_all_properties (db : List Property) (c : Cache) : GetAllResult :=
  match cacheGet c "all_properties" with
  | some v => ⟨v, c, false⟩
  | none =>
      let fetched := CacheVal.props db
      ⟨fetched, cacheSet c "all_properties" fetched 3600, true⟩

/-- Outcome of running a signal handler: the cache afterwards and the
exception, if any, that propagates to the caller of the write. -/
structure HandlerResult where
  cache : Cache
  raised : Option String
  deriving DecidableEq, Repr

/-- `invalidate_property_cache_on_save` from `properties/signals.py`.
The handler body has no `try`/`except`: it deletes `all_properties`,
then calls `cache.delete_pattern('views.decorators.cache.*')`.
`patternFails` models a backend whose `delete_pattern` raises (for
example, one that does not support pattern deletion); the exception
then propagates out of the handler. -/
def invalidate_property_cache_on_save (patternFails : Bool) (c : Cache) :
    HandlerResult :=
  let c1 := cacheDelete c "all_properties"
  if patternFails then
    ⟨c1, some "delete_pattern failed"⟩
  else
    ⟨cacheDeletePattern c1 "views.decorators.cache.", none⟩

/-- `invalidate_property_cache_on_delete` from `properties/signals.py`;
same body as the save handler, registered on `post_delete`. -/
def invalidate_property_cache_on_delete (patternFails : Bool) (c : Cache) :
    HandlerResult :=
  let c1 := cacheDelete c "all_properties"
  if patternFails then
    ⟨c1, some "delete_pattern failed"⟩
  else
    ⟨cacheDeletePattern c1 "views.decorators.cache.", none⟩

/-- Python's `round` to an integer: round half to even (banker's rounding). -/
def roundHE (q : ℚ) : ℤ :=
  if Int.fract q < 1/2 then ⌊q⌋
  else if 1/2 < Int.fract q then ⌊q⌋ + 1
  else if Even ⌊q⌋ then ⌊q⌋ else ⌊q⌋ + 1

/-- Python's `round(q, 2)`: round half to even at two decimal places. -/
def round2 (q : ℚ) : ℚ :=
  (roundHE (q * 100) : ℚ) / 100

/-- The fields `get_redis_cache_metrics` reads from `redis_conn.info()`
(each defaulted to 0 by `info.get(..., 0)` when Redis omits it, so all
are total here). -/
structure RedisInfo where
  keyspace_hits : Nat
  keyspace_misses : Nat
  mem_fragmentation_ratio : ℚ
  evicted_keys : Nat
  uptime_in_seconds : Nat
  deriving DecidableEq, Repr

/-- The text of the four effectiveness classifications in
`get_redis_cache_metrics`. -/
def excellentMsg : String := "Excellent cache hit ratio! Cache is very effective."

def goodMsg : String := "Good cache hit ratio. Consider fine-tuning cache strategies."

def moderateMsg : String :=
  "Moderate cache hit ratio. Review cache invalidation and TTL settings."

def lowMsg : String :=
  "Low cache hit ratio. Consider increasing cache duration or reviewing cache keys."

def fragWarning : String :=
  "High memory fragmentation detected. Consider restarting Redis."

/-- `history[-100:]` applied after the length check in
`store_metrics_history`: keep only the last 100 entries when there are
more than 100. -/
def truncate100 (l : List Metrics) : List Metrics :=
  if l.length > 100 then l.drop (l.length - 100) else l

/-- The metrics history currently stored under `cache_metrics_history`,
as `cache.get('cache_metrics_history', [])` reads it back: the empty
list when the key is absent. -/
def historyOf (c : Cache) : List Metrics :=
  match cacheGet c "cache_metrics_history" with
  | some (CacheVal.history h) => h
  | _ => []

/-- `store_metrics_history(metrics)` from `properties/utils.py`: load the
current history, append the new snapshot, keep the last 100 entries, and
persist for 24 hours (86400 seconds). -/
def store_metrics_history (m : Metrics) (c : Cache) : Cache :=
  let history := historyOf c
  let history := history ++ [m]
  let history := truncate100 history
  cacheSet c "cache_metrics_history" (CacheVal.history history) 86400

/-- `get_redis_cache_metrics()` from `properties/utils.py`.  `info` is the
result of the backend introspection round-trip (`get_redis_connection`
plus `redis_conn.info()` and `redis_conn.keys('*')`): `Except.error e`
models that round-trip raising an exception with message `e`, which the
function's `except` clause turns into the minimal error snapshot.
Returns the snapshot and the cache afterwards. -/
def get_redis_cache_metrics (info : Except String RedisInfo) (now : Nat)
    (c : Cache) : Metrics × Cache :=
  match info with
  | Except.error e =>
      (⟨now, ⟨0, 0, none, 0, none⟩, 0, 0, 0, none, none, some e⟩, c)
  | Except.ok i =>
      let hits := i.keyspace_hits
      let misses := i.keyspace_misses
      let total_requests := hits + misses
      let hit_ratio : ℚ :=
        if total_requests > 0 then ((hits : ℚ) / (total_requests : ℚ)) * 100
        else 0
      let cache_key_count := c.length
      let mem_fragmentation := i.mem_fragmentation_ratio
      let eviction_rate : ℚ :=
        if i.uptime_in_seconds > 0 then
          (i.evicted_keys : ℚ) / (i.uptime_in_seconds : ℚ)
        else 0
      let stats : CacheStats :=
        ⟨hits, misses, some total_requests, round2 hit_ratio,
          some (if total_requests > 0 then round2 (100 - hit_ratio) else 0)⟩
      let analysis :=
        if hit_ratio > 90 then excellentMsg
        else if hit_ratio > 70 then goodMsg
        else if hit_ratio > 50 then moderateMsg
        else lowMsg
      let warning := if mem_fragmentation > 3/2 then some fragWarning else none
      let metrics : Metrics :=
        ⟨now, stats, cache_key_count, round2 mem_fragmentation,
          round2 eviction_rate, some analysis, warning, none⟩
      (metrics, store_metrics_history metrics c)

/-- The trend label of the report's `TREND:` line. -/
inductive Trend where
  | improving
  | declining
  deriving DecidableEq, Repr

/-- The report built by `get_cache_effectiveness_report`, structured:
the snapshot whose fields fill the fixed sections, and the trend line,
present only when the history read back has at least two entries, with
the label and the two compared ratios (`history[0]`'s stored hit ratio
and the fresh snapshot's). -/
structure Report where
  metrics : Metrics
  trend : Option (Trend × ℚ × ℚ)
  deriving DecidableEq, Repr

/-- `get_cache_effectiveness_report()` from `properties/utils.py`: collect
a fresh snapshot (which appends it to the history), return an error
message if it carries `error`, otherwise build the report, adding the
trend line when the history now has at least two entries. -/
def get_cache_effectiveness_report (info : Except String RedisInfo)
    (now : Nat) (c : Cache) : Except String Report × Cache :=
  let (metrics, c') := get_redis_cache_metrics info now c
  match metrics.error with
  | some e => (Except.error ("Error generating report: " ++ e), c')
  | none =>
      let history := historyOf c'
      let trend :=
        match history with
        | h0 :: _ :: _ =>
            let old_ratio := h0.cache_stats.hit_ratio
            let new_ratio := metrics.cache_stats.hit_ratio
            some (if new_ratio > old_ratio then Trend.improving
                  else Trend.declining, old_ratio, new_ratio)
        | _ => none
      (Except.ok ⟨metrics, trend⟩, c')

/-! ### Helper lemmas about the rounding function -/

lemma roundHE_intCast (z : ℤ) : roundHE (z : ℚ) = z := by
  unfold roundHE
  rw [Int.fract_intCast, Int.floor_intCast]
  norm_num

lemma floor_le_roundHE (q : ℚ) : ⌊q⌋ ≤ roundHE q := by
  unfold roundHE
  split_ifs <;> omega

lemma roundHE_le_floor_add_one (q : ℚ) : roundHE q ≤ ⌊q⌋ + 1 := by
  unfold roundHE
  split_ifs <;> omega

lemma roundHE_nonneg {q : ℚ} (h : 0 ≤ q) : 0 ≤ roundHE q := by
  have : (0 : ℤ) ≤ ⌊q⌋ := Int.floor_nonneg.mpr h
  have := floor_le_roundHE q
  omega

lemma roundHE_le_int {q : ℚ} {m : ℤ} (h : q ≤ (m : ℚ)) : roundHE q ≤ m := by
  unfold roundHE
  have hfl : ⌊q⌋ ≤ m := by
    calc ⌊q⌋ ≤ ⌊(m : ℚ)⌋ := Int.floor_le_floor h
    _ = m := Int.floor_intCast m
  split_ifs with h1 h2 h3
  · exact hfl
  · -- fract q > 1/2, so q is not an integer and ⌊q⌋ < m
    have hq : (⌊q⌋ : ℚ) < q := by
      have := Int.self_sub_floor q
      nlinarith [Int.fract_nonneg q]
    have : (⌊q⌋ : ℚ) < (m : ℚ) := lt_of_lt_of_le hq h
    have : ⌊q⌋ < m := by exact_mod_cast this
    omega
  · exact hfl
  · -- fract q = 1/2
    have hfr : Int.fract q = 1/2 := le_antisymm (not_lt.mp h2) (not_lt.mp h1)
    have hq : (⌊q⌋ : ℚ) < q := by
      have := Int.self_sub_floor q
      nlinarith
    have : (⌊q⌋ : ℚ) < (m : ℚ) := lt_of_lt_of_le hq h
    have : ⌊q⌋ < m := by exact_mod_cast this
    omega

/-- Complement identity for banker's rounding: for an even integer `n`,
rounding `q` and rounding `n - q` always add back up to `n`. -/
lemma roundHE_add_compl (n : ℤ) (hn : Even n) (q : ℚ) :
    roundHE q + roundHE ((n : ℚ) - q) = n := by
  have hsub : ((n : ℚ) - q) = (n : ℚ) + (-q) := by ring
  by_cases h0 : Int.fract q = 0
  · -- q is an integer
    have hq : q = (⌊q⌋ : ℚ) := by
      have := Int.self_sub_floor q
      rw [h0] at this
      linarith
    have h1 : roundHE q = ⌊q⌋ := by
      unfold roundHE
      rw [h0]
      norm_num
    have h2 : (n : ℚ) - q = ((n - ⌊q⌋ : ℤ) : ℚ) := by
      push_cast
      linarith
    rw [h1, h2, roundHE_intCast]
    omega
  · have hfr : Int.fract ((n : ℚ) - q) = 1 - Int.fract q := by
      rw [hsub, Int.fract_int_add, Int.fract_neg h0]
    have hflq := Int.self_sub_floor q
    have hfln : ⌊(n : ℚ) - q⌋ = n - ⌊q⌋ - 1 := by
      have h1 : ⌊(n : ℚ) - q⌋ = n + ⌊-q⌋ := by rw [hsub, Int.floor_int_add]
      have h2 : Int.fract (-q) = 1 - Int.fract q := Int.fract_neg h0
      have h3 := Int.self_sub_floor (-q)
      rw [h2] at h3
      have h4 : (⌊-q⌋ : ℚ) = ((-⌊q⌋ - 1 : ℤ) : ℚ) := by
        push_cast
        linarith
      have h5 : ⌊-q⌋ = -⌊q⌋ - 1 := by exact_mod_cast h4
      omega
    have hpos : 0 < Int.fract q := lt_of_le_of_ne (Int.fract_nonneg q) (Ne.symm h0)
    have hlt : Int.fract q < 1 := Int.fract_lt_one q
    unfold roundHE
    rw [hfr, hfln]
    rcases lt_trichotomy (Int.fract q) (1/2) with hc | hc | hc
    · have hA : ¬ (1 - Int.fract q < 1/2) := by linarith
      have hB : (1:ℚ)/2 < 1 - Int.fract q := by linarith
      rw [if_pos hc, if_neg hA, if_pos hB]
      omega
    · have hA : ¬ (Int.fract q < 1/2) := by linarith
      have hB : ¬ ((1:ℚ)/2 < Int.fract q) := by linarith
      have hC : ¬ (1 - Int.fract q < 1/2) := by linarith
      have hD : ¬ ((1:ℚ)/2 < 1 - Int.fract q) := by linarith
      rw [if_neg hA, if_neg hB, if_neg hC, if_neg hD]
      have hmod := Int.even_iff.mp hn
      by_cases he : Even ⌊q⌋
      · have hmod2 := Int.even_iff.mp he
        have hodd : ¬ Even (n - ⌊q⌋ - 1) := by
          rw [Int.even_iff]
          omega
        rw [if_pos he, if_neg hodd]
        omega
      · have hmod2 := Int.not_even_iff.mp he
        have heven : Even (n - ⌊q⌋ - 1) := by
          rw [Int.even_iff]
          omega
        rw [if_neg he, if_pos heven]
        omega
    · have hA : ¬ (Int.fract q < 1/2) := by linarith
      have hC : 1 - Int.fract q < 1/2 := by linarith
      rw [if_neg hA, if_pos hc, if_pos hC]
      omega

/-- `round(q, 2) + round(100 - q, 2) == 100` exactly, thanks to the
half-to-even tie-break. -/
lemma round2_add_compl (q : ℚ) : round2 q + round2 (100 - q) = 100 := by
  unfold round2
  have h : (100 - q) * 100 = ((10000 : ℤ) : ℚ) - q * 100 := by
    push_cast
    ring
  rw [h]
  have h2 := roundHE_add_compl 10000 ⟨5000, by norm_num⟩ (q * 100)
  have hcast : ((roundHE (q * 100) : ℚ)) + ((roundHE (((10000 : ℤ) : ℚ) - q * 100) : ℚ))
      = (10000 : ℚ) := by exact_mod_cast h2
  rw [div_add_div_same, hcast]
  norm_num

lemma round2_nonneg {q : ℚ} (h : 0 ≤ q) : 0 ≤ round2 q := by
  unfold round2
  have := roundHE_nonneg (q := q * 100) (by positivity)
  positivity

lemma round2_le_100 {q : ℚ} (h : q ≤ 100) : round2 q ≤ 100 := by
  unfold round2
  have h1 : q * 100 ≤ ((10000 : ℤ) : ℚ) := by push_cast; linarith
  have h2 := roundHE_le_int h1
  have h3 : (roundHE (q * 100) : ℚ) ≤ ((10000 : ℤ) : ℚ) := by exact_mod_cast h2
  push_cast at h3
  linarith

lemma round2_intCast (z : ℤ) : round2 ((z : ℤ) : ℚ) = ((z : ℤ) : ℚ) := by
  unfold round2
  have h : ((z : ℤ) : ℚ) * 100 = ((z * 100 : ℤ) : ℚ) := by push_cast; ring
  rw [h, roundHE_intCast]
  push_cast
  ring

lemma round2_85 : round2 (85 : ℚ) = 85 := by
  have h := round2_intCast 85
  norm_num at h
  exact h

lemma round2_zero : round2 0 = 0 := by
  unfold round2
  have : roundHE ((0 : ℚ) * 100) = (0 : ℤ) := by
    rw [zero_mul]
    exact_mod_cast roundHE_intCast 0
  rw [this]
  norm_num

/-! ### Helper lemmas about the cache model -/

lemma cacheGet_cacheSet_self (c : Cache) (k : String) (v : CacheVal) (t : Nat) :
    cacheGet (cacheSet c k v t) k = some v := by
  simp [cacheGet, cacheSet, List.find?]

lemma cacheTTL_cacheSet_self (c : Cache) (k : String) (v : CacheVal) (t : Nat) :
    cacheTTL (cacheSet c k v t) k = some t := by
  simp [cacheTTL, cacheSet, List.find?]

lemma cacheGet_filter_none (c : Cache) (k : String) (p : CacheEntry → Bool)
    (hp : ∀ e, p e = true → e.key ≠ k) : cacheGet (c.filter p) k = none := by
  unfold cacheGet
  have h : (c.filter p).find? (fun e => e.key == k) = none := by
    rw [List.find?_eq_none]
    intro x hx
    have hmem := List.mem_filter.mp hx
    simp only [beq_iff_eq]
    exact hp x hmem.2
  rw [h]
  rfl

lemma cacheGet_filter_of_none (c : Cache) (k : String) (p : CacheEntry → Bool)
    (h : cacheGet c k = none) : cacheGet (c.filter p) k = none := by
  unfold cacheGet at h ⊢
  have h1 : c.find? (fun e => e.key == k) = none := by
    cases hfind : c.find? (fun e => e.key == k) with
    | none => rfl
    | some e => rw [hfind] at h; simp at h
  have h2 : (c.filter p).find? (fun e => e.key == k) = none := by
    rw [List.find?_eq_none] at h1 ⊢
    intro x hx
    exact h1 x (List.mem_filter.mp hx).1
  rw [h2]
  rfl

lemma cacheGet_cacheDelete_self (c : Cache) (k : String) :
    cacheGet (cacheDelete c k) k = none := by
  unfold cacheDelete
  apply cacheGet_filter_none
  intro e he
  simpa using he

lemma cacheDelete_absent (c : Cache) (k : String)
    (h : cacheGet c k = none) : cacheDelete c k = c := by
  unfold cacheDelete
  unfold cacheGet at h
  induction c with
  | nil => rfl
  | cons e t ih =>
      by_cases hk : e.key = k
      · exfalso
        rw [List.find?_cons_of_pos] at h
        · simp at h
        · simpa using hk
      · rw [List.find?_cons_of_neg] at h
        · rw [List.filter_cons_of_pos (by simpa using hk)]
          rw [ih h]
        · simpa using hk

lemma filter_idem {α : Type} (p : α → Bool) (l : List α) :
    (l.filter p).filter p = l.filter p := by
  induction l with
  | nil => rfl
  | cons a t ih =>
      by_cases h : p a = true
      · rw [List.filter_cons_of_pos h, List.filter_cons_of_pos h, ih]
      · rw [List.filter_cons_of_neg h, ih]

lemma historyOf_cacheSet (c : Cache) (h : List Metrics) (t : Nat) :
    historyOf (cacheSet c "cache_metrics_history" (CacheVal.history h) t) = h := by
  unfold historyOf
  rw [cacheGet_cacheSet_self]

lemma historyOf_store (m : Metrics) (c : Cache) :
    historyOf (store_metrics_history m c) = truncate100 (historyOf c ++ [m]) := by
  unfold store_metrics_history
  rw [historyOf_cacheSet]

lemma truncate100_length_le (l : List Metrics) : (truncate100 l).length ≤ 100 := by
  unfold truncate100
  split_ifs with h
  · rw [List.length_drop]
    omega
  · omega

lemma truncate100_getLast (l : List Metrics) :
    (truncate100 l).getLast? = l.getLast? := by
  unfold truncate100
  split_ifs with h1
  · rw [List.getLast?_drop, if_neg (by omega)]
  · rfl

lemma getLast_append_singleton (l : List Metrics) (m : Metrics) :
    (l ++ [m]).getLast? = some m := by
  rw [List.getLast?_append]
  rfl

lemma run_save_cache (c : Cache) :
    (invalidate_property_cache_on_save false c).cache =
      c.filter (fun e => !("views.decorators.cache.".isPrefixOf e.key)
        && !(e.key == "all_properties")) := by
  simp [invalidate_property_cache_on_save, cacheDelete, cacheDeletePattern,
    List.filter_filter]

lemma run_delete_cache (c : Cache) :
    (invalidate_property_cache_on_delete false c).cache =
      c.filter (fun e => !("views.decorators.cache.".isPrefixOf e.key)
        && !(e.key == "all_properties")) := by
  simp [invalidate_property_cache_on_delete, cacheDelete, cacheDeletePattern,
    List.filter_filter]

lemma fold_store_length (ms : List Metrics) : ∀ (c : Cache) (m : Metrics),
    (historyOf ((m :: ms).foldl
      (fun cc mm => store_metrics_history mm cc) c)).length ≤ 100 := by
  induction ms with
  | nil =>
      intro c m
      show (historyOf (store_metrics_history m c)).length ≤ 100
      rw [historyOf_store]
      exact truncate100_length_le _
  | cons m2 t ih =>
      intro c m
      exact ih (store_metrics_history m c) m2

lemma grcm_ok_snd (r : RedisInfo) (now : Nat) (c : Cache) :
    (get_redis_cache_metrics (Except.ok r) now c).2
      = store_metrics_history (get_redis_cache_metrics (Except.ok r) now c).1 c :=
  rfl

lemma grcm_ok_stats (r : RedisInfo) (now : Nat) (c : Cache) :
    (get_redis_cache_metrics (Except.ok r) now c).1.cache_stats =
      ⟨r.keyspace_hits, r.keyspace_misses,
       some (r.keyspace_hits + r.keyspace_misses),
       round2 (if r.keyspace_hits + r.keyspace_misses > 0
         then ((r.keyspace_hits : ℚ)
           / ((r.keyspace_hits + r.keyspace_misses : Nat) : ℚ)) * 100
         else 0),
       some (if r.keyspace_hits + r.keyspace_misses > 0
         then round2 (100 - (if r.keyspace_hits + r.keyspace_misses > 0
           then ((r.keyspace_hits : ℚ)
             / ((r.keyspace_hits + r.keyspace_misses : Nat) : ℚ)) * 100
           else 0))
         else 0)⟩ :=
  rfl

lemma grcm_ok_analysis (r : RedisInfo) (now : Nat) (c : Cache) :
    (get_redis_cache_metrics (Except.ok r) now c).1.analysis =
      some (if (if r.keyspace_hits + r.keyspace_misses > 0
          then ((r.keyspace_hits : ℚ)
            / ((r.keyspace_hits + r.keyspace_misses : Nat) : ℚ)) * 100
          else 0) > 90 then excellentMsg
        else if (if r.keyspace_hits + r.keyspace_misses > 0
          then ((r.keyspace_hits : ℚ)
            / ((r.keyspace_hits + r.keyspace_misses : Nat) : ℚ)) * 100
          else 0) > 70 then goodMsg
        else if (if r.keyspace_hits + r.keyspace_misses > 0
          then ((r.keyspace_hits : ℚ)
            / ((r.keyspace_hits + r.keyspace_misses : Nat) : ℚ)) * 100
          else 0) > 50 then moderateMsg
        else lowMsg) :=
  rfl

/-! ### Claim theorems -/

/-- C1, counterexample: the claim that the invalidation handlers never
raise to the caller of the write is false as stated.  On a concrete
cache, with a backend whose pattern-based delete fails, both handlers
let the exception escape (`raised` is not `none`) because their bodies
contain no exception handling. -/
theorem C1_never_raise_counterexample :
    ((invalidate_property_cache_on_save true
        [⟨"all_properties", CacheVal.props [⟨1⟩], 3600⟩]).raised ≠ none) ∧
    ((invalidate_property_cache_on_delete true
        [⟨"all_properties", CacheVal.props [⟨1⟩], 3600⟩]).raised ≠ none) := by
  constructor <;>
    simp [invalidate_property_cache_on_save, invalidate_property_cache_on_delete]

/-- C1, amended: each handler deletes `all_properties` unconditionally
and completes without raising when the backend's pattern-based delete
succeeds; but a failure of the pattern-based delete is not caught — it
propagates to the caller of the originating write (the collection key
having already been deleted). -/
theorem C1_handlers_error_propagation (b : Bool) (c : Cache) :
    ((invalidate_property_cache_on_save false c).raised = none ∧
     (invalidate_property_cache_on_delete false c).raised = none) ∧
    ((invalidate_property_cache_on_save true c).raised ≠ none ∧
     (invalidate_property_cache_on_delete true c).raised ≠ none) ∧
    (cacheGet (invalidate_property_cache_on_save b c).cache "all_properties"
        = none ∧
     cacheGet (invalidate_property_cache_on_delete b c).cache "all_properties"
        = none) := by
  refine ⟨⟨rfl, rfl⟩,
    ⟨by simp [invalidate_property_cache_on_save],
     by simp [invalidate_property_cache_on_delete]⟩, ?_, ?_⟩
  · cases b
    · rw [run_save_cache]
      apply cacheGet_filter_none
      intro e he
      simp at he
      simpa using he.2
    · show cacheGet (cacheDelete c "all_properties") "all_properties" = none
      exact cacheGet_cacheDelete_self c _
  · cases b
    · rw [run_delete_cache]
      apply cacheGet_filter_none
      intro e he
      simp at he
      simpa using he.2
    · show cacheGet (cacheDelete c "all_properties") "all_properties" = none
      exact cacheGet_cacheDelete_self c _

/-- C2: `get_all_properties` returns the cached value unchanged on a hit
(cache untouched, database not queried, independently of the current
database contents `db`); on a miss it returns the fetched collection,
stores it under `all_properties` with a TTL of exactly 3600 seconds, and
queries the database. -/
theorem C2_get_all_properties_contract (db : List Property) (c : Cache) :
    (∀ v, cacheGet c "all_properties" = some v →
        get_all_properties db c = ⟨v, c, false⟩) ∧
    (cacheGet c "all_properties" = none →
        (get_all_properties db c).value = CacheVal.props db ∧
        (get_all_properties db c).dbCalled = true ∧
        cacheGet (get_all_properties db c).cache "all_properties"
          = some (CacheVal.props db) ∧
        cacheTTL (get_all_properties db c).cache "all_properties"
          = some 3600) := by
  constructor
  · intro v h
    simp [get_all_properties, h]
  · intro h
    simp [get_all_properties, h, cacheGet_cacheSet_self, cacheTTL_cacheSet_self]

/-- C2, witness: a concrete hit returns the cached (stale) collection
without touching the cache, and a concrete miss on the empty cache
stores the fetched collection with TTL 3600. -/
theorem C2_get_all_properties_contract_witness :
    (get_all_properties [⟨7⟩] [⟨"all_properties", CacheVal.props [⟨1⟩], 3600⟩]
        = ⟨CacheVal.props [⟨1⟩],
            [⟨"all_properties", CacheVal.props [⟨1⟩], 3600⟩], false⟩) ∧
    cacheGet (get_all_properties [⟨7⟩] []).cache "all_properties"
      = some (CacheVal.props [⟨7⟩]) ∧
    cacheTTL (get_all_properties [⟨7⟩] []).cache "all_properties" = some 3600 :=
  ⟨(C2_get_all_properties_contract [⟨7⟩] _).1 _ (by decide),
   ((C2_get_all_properties_contract [⟨7⟩] []).2 (by decide)).2.2.1,
   ((C2_get_all_properties_contract [⟨7⟩] []).2 (by decide)).2.2.2⟩

/-- C7: invalidation is idempotent with respect to the collection cache:
after one handler run the key `all_properties` is absent, after a second
run the cache state is unchanged (for both the successful and the
failing pattern-delete path of both handlers), and deleting an absent
key is a no-op on the cache state rather than an error. -/
theorem C7_invalidation_idempotent (b : Bool) (c : Cache) :
    (cacheGet (invalidate_property_cache_on_save b c).cache "all_properties"
        = none) ∧
    ((invalidate_property_cache_on_save b
        ((invalidate_property_cache_on_save b c).cache)).cache
      = (invalidate_property_cache_on_save b c).cache) ∧
    ((invalidate_property_cache_on_delete b
        ((invalidate_property_cache_on_delete b c).cache)).cache
      = (invalidate_property_cache_on_delete b c).cache) ∧
    (cacheGet (invalidate_property_cache_on_save b
        ((invalidate_property_cache_on_save b c).cache)).cache "all_properties"
      = none) ∧
    (cacheGet c "all_properties" = none → cacheDelete c "all_properties" = c) := by
  have hsave : ∀ cc, cacheGet
      (invalidate_property_cache_on_save b cc).cache "all_properties" = none := by
    intro cc
    cases b
    · rw [run_save_cache]
      apply cacheGet_filter_none
      intro e he
      simp at he
      simpa using he.2
    · exact cacheGet_cacheDelete_self cc _
  have hsave_idem : ∀ cc, (invalidate_property_cache_on_save b
      ((invalidate_property_cache_on_save b cc).cache)).cache
        = (invalidate_property_cache_on_save b cc).cache := by
    intro cc
    cases b
    · simp only [run_save_cache]
      exact filter_idem _ _
    · show cacheDelete (cacheDelete cc "all_properties") "all_properties"
        = cacheDelete cc "all_properties"
      exact filter_idem _ _
  refine ⟨hsave c, hsave_idem c, ?_, hsave ((invalidate_property_cache_on_save b c).cache),
    cacheDelete_absent c _⟩
  cases b
  · simp only [run_delete_cache]
    exact filter_idem _ _
  · show cacheDelete (cacheDelete c "all_properties") "all_properties"
      = cacheDelete c "all_properties"
    exact filter_idem _ _

/-- C7, witness: on the empty cache, deleting the absent collection key
is a no-op. -/
theorem C7_invalidation_idempotent_witness :
    cacheDelete ([] : Cache) "all_properties" = [] :=
  (C7_invalidation_idempotent false []).2.2.2.2 rfl

/-- C10: a miss in `get_all_properties` is detected solely by the key
being absent (`None`), not by emptiness of the stored value: a cached
empty collection is a hit (no database query, cache unchanged), and when
the database returns an empty collection on a miss it is stored under
the key, so every subsequent call is a hit returning the empty
collection without querying the database again. -/
theorem C10_empty_collection_is_cached (db : List Property) (c : Cache) :
    (cacheGet c "all_properties" = some (CacheVal.props []) →
        get_all_properties db c = ⟨CacheVal.props [], c, false⟩) ∧
    (cacheGet c "all_properties" = none →
        (get_all_properties [] c).dbCalled = true ∧
        (get_all_properties [] c).value = CacheVal.props [] ∧
        cacheGet (get_all_properties [] c).cache "all_properties"
          = some (CacheVal.props []) ∧
        get_all_properties db ((get_all_properties [] c).cache)
          = ⟨CacheVal.props [], (get_all_properties [] c).cache, false⟩) := by
  constructor
  · intro h
    simp [get_all_properties, h]
  · intro h
    have h1 : (get_all_properties [] c).cache
        = cacheSet c "all_properties" (CacheVal.props []) 3600 := by
      simp [get_all_properties, h]
    have h2 : cacheGet (get_all_properties [] c).cache "all_properties"
        = some (CacheVal.props []) := by
      rw [h1]
      exact cacheGet_cacheSet_self c _ _ _
    refine ⟨by simp [get_all_properties, h], by simp [get_all_properties, h],
      h2, ?_⟩
    generalize hc1 : (get_all_properties [] c).cache = c1 at h2 ⊢
    simp [get_all_properties, h2]

/-- C10, witness: starting from the empty cache with an empty database,
the first call queries the database and stores the empty collection; the
second call (with a now non-empty database) is a hit returning the empty
collection without a query. -/
theorem C10_empty_collection_is_cached_witness :
    (get_all_properties [] []).dbCalled = true ∧
    get_all_properties [⟨5⟩] ((get_all_properties [] []).cache)
      = ⟨CacheVal.props [], (get_all_properties [] []).cache, false⟩ :=
  ⟨((C10_empty_collection_is_cached [⟨5⟩] []).2 (by decide)).1,
   ((C10_empty_collection_is_cached [⟨5⟩] []).2 (by decide)).2.2.2⟩

/-- C3: when the backend introspection fails, `get_redis_cache_metrics`
returns (does not raise) a minimal snapshot with the `error` field set,
the timestamp, and `hits = 0`, `misses = 0`, `hit_ratio = 0`, leaving
the cache — and hence the stored history — unchanged; on success the
snapshot carries no `error` and is appended to the history (it becomes
the last stored entry). -/
theorem C3_error_snapshot_not_appended (e : String) (r : RedisInfo)
    (now : Nat) (c : Cache) :
    ((get_redis_cache_metrics (Except.error e) now c).1.error = some e ∧
     (get_redis_cache_metrics (Except.error e) now c).1.timestamp = now ∧
     (get_redis_cache_metrics (Except.error e) now c).1.cache_stats.hits = 0 ∧
     (get_redis_cache_metrics (Except.error e) now c).1.cache_stats.misses = 0 ∧
     (get_redis_cache_metrics (Except.error e) now c).1.cache_stats.hit_ratio = 0 ∧
     (get_redis_cache_metrics (Except.error e) now c).2 = c) ∧
    ((get_redis_cache_metrics (Except.ok r) now c).1.error = none ∧
     historyOf (get_redis_cache_metrics (Except.ok r) now c).2
       = truncate100 (historyOf c
           ++ [(get_redis_cache_metrics (Except.ok r) now c).1]) ∧
     (historyOf (get_redis_cache_metrics (Except.ok r) now c).2).getLast?
       = some (get_redis_cache_metrics (Except.ok r) now c).1) := by
  refine ⟨⟨rfl, rfl, rfl, rfl, rfl, rfl⟩, rfl, ?_, ?_⟩
  · rw [grcm_ok_snd, historyOf_store]
  · rw [grcm_ok_snd, historyOf_store, truncate100_getLast,
      getLast_append_singleton]

/-- C6: appending to the metrics history places the new snapshot at the
end, keeps at most the last 100 entries (dropping the oldest from the
front), re-persists the history with a 24-hour (86400 second) expiry,
and consequently the history never exceeds 100 entries however many
snapshots are appended in sequence. -/
theorem C6_history_bounded (m : Metrics) (c : Cache) :
    (historyOf (store_metrics_history m c)
      = truncate100 (historyOf c ++ [m])) ∧
    ((historyOf (store_metrics_history m c)).getLast? = some m) ∧
    ((historyOf (store_metrics_history m c)).length ≤ 100) ∧
    (cacheTTL (store_metrics_history m c) "cache_metrics_history"
      = some 86400) ∧
    (∀ ms : List Metrics,
      (historyOf ((m :: ms).foldl
        (fun cc mm => store_metrics_history mm cc) c)).length ≤ 100) := by
  refine ⟨historyOf_store m c, ?_, ?_, ?_, fun ms => fold_store_length ms c m⟩
  · rw [historyOf_store, truncate100_getLast, getLast_append_singleton]
  · rw [historyOf_store]
    exact truncate100_length_le _
  · exact cacheTTL_cacheSet_self _ _ _ _

/-- C9: for a backend reporting `hits = 0` and `misses = 0` on the
success path, the snapshot has `hit_ratio = 0` and `miss_ratio = 0` and
carries the lowest-band classification, not an absent one. -/
theorem C9_idle_cache_low_band (mf : ℚ) (ek ut now : Nat) (c : Cache) :
    ((get_redis_cache_metrics (Except.ok ⟨0, 0, mf, ek, ut⟩)
        now c).1.cache_stats.hit_ratio = 0) ∧
    ((get_redis_cache_metrics (Except.ok ⟨0, 0, mf, ek, ut⟩)
        now c).1.cache_stats.miss_ratio = some 0) ∧
    ((get_redis_cache_metrics (Except.ok ⟨0, 0, mf, ek, ut⟩)
        now c).1.analysis = some lowMsg) ∧
    ((get_redis_cache_metrics (Except.ok ⟨0, 0, mf, ek, ut⟩)
        now c).1.error = none) := by
  refine ⟨?_, ?_, ?_, rfl⟩ <;>
    norm_num [get_redis_cache_metrics, round2_zero]

/-- C8: every successfully collected snapshot satisfies
`hits + misses = total_requests`; with `total_requests > 0` the stored
(rounded) hit and miss ratios add up to exactly 100 and the hit ratio
lies between 0 and 100; with `total_requests = 0` both ratios are 0. -/
theorem C8_snapshot_numeric_invariants (r : RedisInfo) (now : Nat) (c : Cache) :
    ((get_redis_cache_metrics (Except.ok r) now c).1.cache_stats.hits
        = r.keyspace_hits) ∧
    ((get_redis_cache_metrics (Except.ok r) now c).1.cache_stats.misses
        = r.keyspace_misses) ∧
    ((get_redis_cache_metrics (Except.ok r) now c).1.cache_stats.total_requests
        = some (r.keyspace_hits + r.keyspace_misses)) ∧
    (r.keyspace_hits + r.keyspace_misses = 0 →
        (get_redis_cache_metrics (Except.ok r) now c).1.cache_stats.hit_ratio
          = 0 ∧
        (get_redis_cache_metrics (Except.ok r) now c).1.cache_stats.miss_ratio
          = some 0) ∧
    (0 < r.keyspace_hits + r.keyspace_misses →
        (get_redis_cache_metrics (Except.ok r) now c).1.cache_stats.hit_ratio
          + ((get_redis_cache_metrics
              (Except.ok r) now c).1.cache_stats.miss_ratio.getD 0) = 100 ∧
        0 ≤ (get_redis_cache_metrics
              (Except.ok r) now c).1.cache_stats.hit_ratio ∧
        (get_redis_cache_metrics (Except.ok r) now c).1.cache_stats.hit_ratio
          ≤ 100) := by
  rw [grcm_ok_stats]
  refine ⟨rfl, rfl, rfl, ?_, ?_⟩
  · intro h0
    have hc : ¬ (r.keyspace_hits + r.keyspace_misses > 0) := by omega
    constructor
    · simp [hc, round2_zero]
    · simp [hc]
  · intro hpos
    have h2 : (0:ℚ) < ((r.keyspace_hits + r.keyspace_misses : Nat) : ℚ) := by
      exact_mod_cast hpos
    have h1 : (r.keyspace_hits : ℚ)
        ≤ ((r.keyspace_hits + r.keyspace_misses : Nat) : ℚ) := by
      exact_mod_cast Nat.le_add_right _ _
    have h3 : (r.keyspace_hits : ℚ)
        / ((r.keyspace_hits + r.keyspace_misses : Nat) : ℚ) ≤ 1 :=
      (div_le_one h2).mpr h1
    have h4 : (0:ℚ) ≤ (r.keyspace_hits : ℚ)
        / ((r.keyspace_hits + r.keyspace_misses : Nat) : ℚ) := by positivity
    refine ⟨?_, ?_, ?_⟩
    · simp only [if_pos hpos, Option.getD_some, CacheStats.hit_ratio,
        CacheStats.miss_ratio]
      exact round2_add_compl _
    · simp only [if_pos hpos, CacheStats.hit_ratio]
      exact round2_nonneg (by positivity)
    · simp only [if_pos hpos, CacheStats.hit_ratio]
      exact round2_le_100 (by nlinarith)

/-- C8, witness: at hits=3, misses=1 the rounded ratios are 75 and 25 and
add to 100; at hits=0, misses=0 both ratios are 0. -/
theorem C8_snapshot_numeric_invariants_witness :
    ((get_redis_cache_metrics (Except.ok ⟨3, 1, 0, 0, 1⟩)
        0 []).1.cache_stats.hit_ratio
      + ((get_redis_cache_metrics (Except.ok ⟨3, 1, 0, 0, 1⟩)
          0 []).1.cache_stats.miss_ratio.getD 0) = 100 ∧
     0 ≤ (get_redis_cache_metrics (Except.ok ⟨3, 1, 0, 0, 1⟩)
          0 []).1.cache_stats.hit_ratio ∧
     (get_redis_cache_metrics (Except.ok ⟨3, 1, 0, 0, 1⟩)
          0 []).1.cache_stats.hit_ratio ≤ 100) ∧
    ((get_redis_cache_metrics (Except.ok ⟨0, 0, 0, 0, 1⟩)
        0 []).1.cache_stats.hit_ratio = 0 ∧
     (get_redis_cache_metrics (Except.ok ⟨0, 0, 0, 0, 1⟩)
        0 []).1.cache_stats.miss_ratio = some 0) :=
  ⟨(C8_snapshot_numeric_invariants ⟨3, 1, 0, 0, 1⟩ 0 []).2.2.2.2 (by decide),
   (C8_snapshot_numeric_invariants ⟨0, 0, 0, 0, 1⟩ 0 []).2.2.2.1 (by decide)⟩

/-- C4: the effectiveness classification attached on the success path is
chosen by strict thresholds on the hit ratio: strictly above 90 gives
the excellent band, strictly above 70 the good band, strictly above 50
the moderate band, and otherwise the low band — with a ratio of exactly
90 classified good (hits=9, misses=1), exactly 70 moderate (hits=7,
misses=3) and exactly 50 low (hits=1, misses=1). -/
theorem C4_classification_thresholds (r : RedisInfo) (now : Nat) (c : Cache)
    (ratio : ℚ)
    (hratio : ratio = if r.keyspace_hits + r.keyspace_misses > 0
        then ((r.keyspace_hits : ℚ)
          / ((r.keyspace_hits + r.keyspace_misses : Nat) : ℚ)) * 100
        else 0) :
    (((get_redis_cache_metrics (Except.ok r) now c).1.analysis
        = some excellentMsg ↔ 90 < ratio) ∧
     ((get_redis_cache_metrics (Except.ok r) now c).1.analysis
        = some goodMsg ↔ 70 < ratio ∧ ratio ≤ 90) ∧
     ((get_redis_cache_metrics (Except.ok r) now c).1.analysis
        = some moderateMsg ↔ 50 < ratio ∧ ratio ≤ 70) ∧
     ((get_redis_cache_metrics (Except.ok r) now c).1.analysis
        = some lowMsg ↔ ratio ≤ 50)) ∧
    ((get_redis_cache_metrics (Except.ok ⟨9, 1, 0, 0, 1⟩) now c).1.analysis
        = some goodMsg ∧
     (get_redis_cache_metrics (Except.ok ⟨7, 3, 0, 0, 1⟩) now c).1.analysis
        = some moderateMsg ∧
     (get_redis_cache_metrics (Except.ok ⟨1, 1, 0, 0, 1⟩) now c).1.analysis
        = some lowMsg) := by
  constructor
  · rw [grcm_ok_analysis, ← hratio]
    have hEG : excellentMsg ≠ goodMsg := by decide
    have hEM : excellentMsg ≠ moderateMsg := by decide
    have hEL : excellentMsg ≠ lowMsg := by decide
    have hGM : goodMsg ≠ moderateMsg := by decide
    have hGL : goodMsg ≠ lowMsg := by decide
    have hML : moderateMsg ≠ lowMsg := by decide
    rcases le_or_lt ratio 50 with h50 | h50
    · rw [if_neg (by simp only [gt_iff_lt]; linarith : ¬ (ratio > 90)),
        if_neg (by simp only [gt_iff_lt]; linarith : ¬ (ratio > 70)),
        if_neg (by simp only [gt_iff_lt]; linarith : ¬ (ratio > 50))]
      simp only [Option.some.injEq]
      exact ⟨iff_of_false (fun h => hEL h.symm) (by linarith),
        iff_of_false (fun h => hGL h.symm) (by rintro ⟨h, -⟩; linarith),
        iff_of_false (fun h => hML h.symm) (by rintro ⟨h, -⟩; linarith),
        iff_of_true trivial h50⟩
    · rcases le_or_lt ratio 70 with h70 | h70
      · rw [if_neg (by simp only [gt_iff_lt]; linarith : ¬ (ratio > 90)),
          if_neg (by simp only [gt_iff_lt]; linarith : ¬ (ratio > 70)),
          if_pos (by simp only [gt_iff_lt]; linarith : ratio > 50)]
        simp only [Option.some.injEq]
        exact ⟨iff_of_false (fun h => hEM h.symm) (by linarith),
          iff_of_false (fun h => hGM h.symm) (by rintro ⟨h, -⟩; linarith),
          iff_of_true trivial ⟨h50, h70⟩,
          iff_of_false hML (by linarith)⟩
      · rcases le_or_lt ratio 90 with h90 | h90
        · rw [if_neg (by simp only [gt_iff_lt]; linarith : ¬ (ratio > 90)),
            if_pos (by simp only [gt_iff_lt]; linarith : ratio > 70)]
          simp only [Option.some.injEq]
          exact ⟨iff_of_false (fun h => hEG h.symm) (by linarith),
            iff_of_true trivial ⟨h70, h90⟩,
            iff_of_false hGM (by rintro ⟨-, h⟩; linarith),
            iff_of_false hGL (by linarith)⟩
        · rw [if_pos (by simp only [gt_iff_lt]; linarith : ratio > 90)]
          simp only [Option.some.injEq]
          exact ⟨iff_of_true trivial h90,
            iff_of_false hEG (by rintro ⟨-, h⟩; linarith),
            iff_of_false hEM (by rintro ⟨-, h⟩; linarith),
            iff_of_false hEL (by linarith)⟩
  · refine ⟨?_, ?_, ?_⟩ <;> norm_num [grcm_ok_analysis]

/-- C4, witness: at hits=95, misses=5 the hit ratio is 95 and the
classification is the excellent band. -/
theorem C4_classification_thresholds_witness :
    (get_redis_cache_metrics (Except.ok ⟨95, 5, 0, 0, 1⟩) 0 []).1.analysis
      = some excellentMsg :=
  ((C4_classification_thresholds ⟨95, 5, 0, 0, 1⟩ 0 [] _ rfl).1.1).mpr
    (by norm_num)

lemma report_ok (r : RedisInfo) (now : Nat) (c : Cache) :
    (get_cache_effectiveness_report (Except.ok r) now c).1
      = Except.ok
          ⟨(get_redis_cache_metrics (Except.ok r) now c).1,
           match historyOf (get_redis_cache_metrics (Except.ok r) now c).2 with
           | h0 :: _ :: _ =>
               some (if (get_redis_cache_metrics
                        (Except.ok r) now c).1.cache_stats.hit_ratio
                       > h0.cache_stats.hit_ratio
                     then Trend.improving else Trend.declining,
                     h0.cache_stats.hit_ratio,
                     (get_redis_cache_metrics
                       (Except.ok r) now c).1.cache_stats.hit_ratio)
           | _ => none⟩ :=
  rfl

/-- C5: on a successful collection the report is produced (not the error
message), and its trend line is present exactly when the history read
back after the collection's append has at least two entries; it then
compares the oldest retained snapshot's stored hit ratio against the
just-collected one, labelled improving exactly when the new ratio is
strictly greater and declining otherwise (ties included). -/
theorem C5_trend_emission (r : RedisInfo) (now : Nat) (c : Cache) :
    (∃ rep, (get_cache_effectiveness_report (Except.ok r) now c).1
        = Except.ok rep) ∧
    (∀ rep, (get_cache_effectiveness_report (Except.ok r) now c).1
        = Except.ok rep →
      ((rep.trend = none ↔
          (historyOf (get_redis_cache_metrics
            (Except.ok r) now c).2).length < 2) ∧
       (∀ h0 h1 t,
          historyOf (get_redis_cache_metrics (Except.ok r) now c).2
            = h0 :: h1 :: t →
          rep.trend = some
            (if (get_redis_cache_metrics
                  (Except.ok r) now c).1.cache_stats.hit_ratio
                  > h0.cache_stats.hit_ratio
             then Trend.improving else Trend.declining,
             h0.cache_stats.hit_ratio,
             (get_redis_cache_metrics
               (Except.ok r) now c).1.cache_stats.hit_ratio)) ∧
       (∀ h0 h1 t,
          historyOf (get_redis_cache_metrics (Except.ok r) now c).2
            = h0 :: h1 :: t →
          h0.cache_stats.hit_ratio
            = (get_redis_cache_metrics
                (Except.ok r) now c).1.cache_stats.hit_ratio →
          rep.trend = some
            (Trend.declining, h0.cache_stats.hit_ratio,
             (get_redis_cache_metrics
               (Except.ok r) now c).1.cache_stats.hit_ratio)))) := by
  refine ⟨⟨_, report_ok r now c⟩, ?_⟩
  intro rep hrep
  rw [report_ok] at hrep
  have hrep' := (Except.ok.inj hrep).symm
  subst hrep'
  refine ⟨?_, ?_, ?_⟩
  · cases hh : historyOf (get_redis_cache_metrics (Except.ok r) now c).2 with
    | nil => simp [hh]
    | cons a tl =>
        cases tl with
        | nil => simp [hh]
        | cons b tl2 => simp [hh]
  · intro h0 h1 t hh
    simp [hh]
  · intro h0 h1 t hh heq
    simp [hh, heq]

/-- C5, witness: with a stored two-entry history whose oldest snapshot
has hit ratio 60, a fresh collection yielding ratio 85 produces a report
whose trend line is improving, comparing 60 against 85; with an oldest
snapshot whose ratio ties the fresh 85, the trend line is declining. -/
theorem C5_trend_emission_witness :
    (((get_cache_effectiveness_report (Except.ok ⟨85, 15, 0, 0, 1⟩) 9
        (store_metrics_history
          ⟨1, ⟨8, 2, some 10, 80, some 20⟩, 0, 0, 0, none, none, none⟩
          (store_metrics_history
            ⟨0, ⟨6, 4, some 10, 60, some 40⟩, 0, 0, 0, none, none, none⟩
            []))).1).map Report.trend
      = Except.ok (some (Trend.improving, 60, 85))) ∧
    (((get_cache_effectiveness_report (Except.ok ⟨85, 15, 0, 0, 1⟩) 9
        (store_metrics_history
          ⟨1, ⟨8, 2, some 10, 80, some 20⟩, 0, 0, 0, none, none, none⟩
          (store_metrics_history
            ⟨0, ⟨85, 15, some 100, 85, some 15⟩, 0, 0, 0, none, none, none⟩
            []))).1).map Report.trend
      = Except.ok (some (Trend.declining, 85, 85))) := by
  constructor
  · set M60 : Metrics := ⟨0, ⟨6, 4, some 10, 60, some 40⟩, 0, 0, 0, none, none, none⟩
      with hM60
    set M80 : Metrics := ⟨1, ⟨8, 2, some 10, 80, some 20⟩, 0, 0, 0, none, none, none⟩
      with hM80
    have hfresh : (get_redis_cache_metrics (Except.ok ⟨85, 15, 0, 0, 1⟩) 9
        (store_metrics_history M80
          (store_metrics_history M60 []))).1.cache_stats.hit_ratio = 85 := by
      rw [grcm_ok_stats]
      norm_num [round2_85]
    have hc0 : historyOf (store_metrics_history M80 (store_metrics_history M60 []))
        = [M60, M80] := rfl
    have hh : historyOf (get_redis_cache_metrics (Except.ok ⟨85, 15, 0, 0, 1⟩) 9
        (store_metrics_history M80 (store_metrics_history M60 []))).2
        = M60 :: M80 :: [(get_redis_cache_metrics (Except.ok ⟨85, 15, 0, 0, 1⟩) 9
            (store_metrics_history M80 (store_metrics_history M60 []))).1] := by
      rw [grcm_ok_snd, historyOf_store, hc0]
      rfl
    have h := ((C5_trend_emission ⟨85, 15, 0, 0, 1⟩ 9
        (store_metrics_history M80 (store_metrics_history M60 []))).2 _
          (report_ok _ _ _)).2.1 M60 M80 _ hh
    dsimp only [] at h
    rw [report_ok]
    simp only [Except.map]
    rw [h, hfresh]
    norm_num
  · set M85 : Metrics := ⟨0, ⟨85, 15, some 100, 85, some 15⟩, 0, 0, 0, none, none, none⟩
      with hM85
    set M80 : Metrics := ⟨1, ⟨8, 2, some 10, 80, some 20⟩, 0, 0, 0, none, none, none⟩
      with hM80
    have hfresh : (get_redis_cache_metrics (Except.ok ⟨85, 15, 0, 0, 1⟩) 9
        (store_metrics_history M80
          (store_metrics_history M85 []))).1.cache_stats.hit_ratio = 85 := by
      rw [grcm_ok_stats]
      norm_num [round2_85]
    have hc0 : historyOf (store_metrics_history M80 (store_metrics_history M85 []))
        = [M85, M80] := rfl
    have hh : historyOf (get_redis_cache_metrics (Except.ok ⟨85, 15, 0, 0, 1⟩) 9
        (store_metrics_history M80 (store_metrics_history M85 []))).2
        = M85 :: M80 :: [(get_redis_cache_metrics (Except.ok ⟨85, 15, 0, 0, 1⟩) 9
            (store_metrics_history M80 (store_metrics_history M85 []))).1] := by
      rw [grcm_ok_snd, historyOf_store, hc0]
      rfl
    have heq : M85.cache_stats.hit_ratio
        = (get_redis_cache_metrics (Except.ok ⟨85, 15, 0, 0, 1⟩) 9
            (store_metrics_history M80
              (store_metrics_history M85 []))).1.cache_stats.hit_ratio := by
      rw [hfresh]
    have h := ((C5_trend_emission ⟨85, 15, 0, 0, 1⟩ 9
        (store_metrics_history M80 (store_metrics_history M85 []))).2 _
          (report_ok _ _ _)).2.2 M85 M80 _ hh heq
    dsimp only [] at h
    rw [report_ok]
    simp only [Except.map]
    rw [h, hfresh]

end PropertyListings
